import Mathlib

/-!
Shallow embedding of the sql-automation repository layer
(src/src/validation.py, src/src/repository.py) together with a model of the
database state it manipulates.  Python values are embedded as an inductive
type, numeric amounts as rationals (the schema column is NUMERIC), machine
failures of individual SQL statements are injected through an explicit list
of fault flags, and the commit/rollback discipline of the `with conn` blocks
is made explicit in the state threading.
-/

deriving instance DecidableEq for Except

namespace SqlAutomation

/-- Python runtime values that can reach the repository layer. -/
inductive PyVal where
  | none : PyVal
  | bool : Bool → PyVal
  | int : Int → PyVal
  | float : ℚ → PyVal
  | str : String → PyVal
deriving DecidableEq

/-- Python classes used as isinstance targets in the repository. -/
inductive PyType where
  | intT : PyType
  | floatT : PyType
  | strT : PyType
  | boolT : PyType
  | noneT : PyType
deriving DecidableEq

/-- The expected_type argument of validate_param_type: a class or a tuple of classes. -/
inductive PyTypeSpec where
  | single : PyType → PyTypeSpec
  | tuple : List PyType → PyTypeSpec
deriving DecidableEq

/-- Dynamic type of a value, as type(value) in Python. -/
def PyVal.typeOf : PyVal → PyType
  | .none => .noneT
  | .bool _ => .boolT
  | .int _ => .intT
  | .float _ => .floatT
  | .str _ => .strT

/-- Python isinstance against a single class; bool is a subclass of int. -/
def instanceOf1 (v : PyVal) (t : PyType) : Bool :=
  match t, v with
  | .intT, .int _ => true
  | .intT, .bool _ => true
  | .floatT, .float _ => true
  | .strT, .str _ => true
  | .boolT, .bool _ => true
  | .noneT, .none => true
  | _, _ => false

/-- Python isinstance(value, expected_type) for a class or a tuple of classes. -/
def isinstance (v : PyVal) (ts : PyTypeSpec) : Bool :=
  match ts with
  | .single t => instanceOf1 v t
  | .tuple l => l.any (fun t => instanceOf1 v t)

/-- The __name__ attribute of each class. -/
def pyTypeName : PyType → String
  | .intT => "int"
  | .floatT => "float"
  | .strT => "str"
  | .boolT => "bool"
  | .noneT => "NoneType"

/-- The expected-type text interpolated into the TypeError message. -/
def typeSpecName : PyTypeSpec → String
  | .single t => pyTypeName t
  | .tuple l => String.intercalate ", " (l.map pyTypeName)

def PyVal.isNone : PyVal → Bool
  | .none => true
  | _ => false

/-- Numeric content of a value; Python treats True as 1 and False as 0. -/
def PyVal.toRat : PyVal → ℚ
  | .int n => (n : ℚ)
  | .float q => q
  | .bool b => if b then 1 else 0
  | _ => 0

/-- Integer content of a value, for values that passed an int isinstance check. -/
def PyVal.toInt : PyVal → Int
  | .int n => n
  | .bool b => if b then 1 else 0
  | _ => 0

/-- String content of a value, for values that passed a str isinstance check. -/
def PyVal.asStr : PyVal → String
  | .str s => s
  | _ => ""

/-- Optional string content: Python None becomes SQL NULL. -/
def PyVal.asOptStr : PyVal → Option String
  | .str s => some s
  | _ => Option.none

/-- A value that Python would call numeric: int, float, or bool. -/
def PyVal.isNumeric : PyVal → Bool
  | .int _ => true
  | .float _ => true
  | .bool _ => true
  | _ => false

/-- Errors surfaced by the repository layer: TypeError and ValueError are the
validation errors raised before any database contact, databaseError stands
for psycopg2.Error. -/
inductive Err where
  | typeError : String → Err
  | valueError : String → Err
  | databaseError : String → Err
deriving DecidableEq

/-- The validation-error kinds of the spec: raised before any database contact. -/
def Err.isValidation : Err → Bool
  | .typeError _ => true
  | .valueError _ => true
  | .databaseError _ => false

/-- The exact message text built by validate_param_type on failure. -/
def typeErrorMsg (n : String) (v : PyVal) (ts : PyTypeSpec) (can_be_null : Bool) : String :=
  n ++ " must be " ++ typeSpecName ts ++ (if can_be_null then " or None" else "") ++
    ", got " ++ pyTypeName v.typeOf ++ " instead"

/-- src/src/validation.py, validate_param_type. -/
def validate_param_type (n : String) (v : PyVal) (ts : PyTypeSpec) (can_be_null : Bool) :
    Except Err Unit :=
  if can_be_null && v.isNone then .ok ()
  else if isinstance v ts then .ok ()
  else .error (.typeError (typeErrorMsg n v ts can_be_null))

/-! ## Calendar dates and the Python strptime model -/

/-- A calendar date, the content of a DATE column and of a parsed datetime. -/
structure Date where
  year : Nat
  month : Nat
  day : Nat
deriving DecidableEq

/-- Strict lexicographic comparison of dates, as datetime comparison in Python. -/
def dateLt (a b : Date) : Bool :=
  a.year < b.year ||
    (a.year == b.year && (a.month < b.month ||
      (a.month == b.month && a.day < b.day)))

/-- Non-strict lexicographic comparison of dates. -/
def dateLe (a b : Date) : Bool :=
  a.year < b.year ||
    (a.year == b.year && (a.month < b.month ||
      (a.month == b.month && a.day ≤ b.day)))

/-- Gregorian leap-year rule, as used by the Python datetime module. -/
def isLeap (y : Nat) : Bool :=
  y % 4 == 0 && (y % 100 != 0 || y % 400 == 0)

/-- Number of days of a month, as validated by the datetime constructor. -/
def daysInMonth (y m : Nat) : Nat :=
  if m = 2 then (if isLeap y then 29 else 28)
  else if m = 4 ∨ m = 6 ∨ m = 9 ∨ m = 11 then 30
  else 31

def digitVal (c : Char) : Nat := c.toNat - 48

def nonzeroDigit (c : Char) : Bool := '1' ≤ c && c ≤ '9'

/-- The %Y field of strptime: exactly four digits. -/
def matchYear : List Char → Option (Nat × List Char)
  | a :: b :: c :: d :: rest =>
    if a.isDigit && b.isDigit && c.isDigit && d.isDigit then
      some (digitVal a * 1000 + digitVal b * 100 + digitVal c * 10 + digitVal d, rest)
    else none
  | _ => none

/-- The %d field of strptime with its regex alternatives tried in order:
two digits 01..31, a bare digit 1..9, or a space-padded digit. -/
def matchDay : List Char → Option (Nat × List Char)
  | [] => none
  | c1 :: rest1 =>
    match rest1 with
    | c2 :: rest2 =>
      if c1 == '3' && (c2 == '0' || c2 == '1') then some (30 + digitVal c2, rest2)
      else if (c1 == '1' || c1 == '2') && c2.isDigit then
        some (digitVal c1 * 10 + digitVal c2, rest2)
      else if c1 == '0' && nonzeroDigit c2 then some (digitVal c2, rest2)
      else if nonzeroDigit c1 then some (digitVal c1, rest1)
      else if c1 == ' ' && nonzeroDigit c2 then some (digitVal c2, rest2)
      else none
    | [] => if nonzeroDigit c1 then some (digitVal c1, []) else none

/-- After the month: the literal dash and the %d field. -/
def contAfterMonth (y m : Nat) : List Char → Option (Nat × Nat × Nat × List Char)
  | '-' :: rest => (matchDay rest).map (fun p => (y, m, p.1, p.2))
  | _ => none

/-- The %m field of strptime with regex backtracking: two digits 01..12 are
preferred, falling back to a bare digit 1..9 when the remainder of the
pattern cannot be matched. -/
def matchMonthThen (y : Nat) : List Char → Option (Nat × Nat × Nat × List Char)
  | c1 :: c2 :: rest =>
    (if c1 == '1' && ('0' ≤ c2 && c2 ≤ '2') then
        contAfterMonth y (10 + digitVal c2) rest
      else none) <|>
    (if c1 == '0' && nonzeroDigit c2 then contAfterMonth y (digitVal c2) rest
      else none) <|>
    (if nonzeroDigit c1 then contAfterMonth y (digitVal c1) (c2 :: rest) else none)
  | [c1] => if nonzeroDigit c1 then contAfterMonth y (digitVal c1) [] else none
  | [] => none

/-- The full %Y-%m-%d pattern, returning the unconsumed remainder. -/
def parseYmd (cs : List Char) : Option (Nat × Nat × Nat × List Char) :=
  match matchYear cs with
  | some (y, r1) =>
    match r1 with
    | '-' :: r2 => matchMonthThen y r2
    | _ => none
  | none => none

/-- Python datetime.strptime(s, %Y-%m-%d): the pattern must consume the whole
string and the fields must form a constructible date. -/
def strptimeYmd (s : String) : Option Date :=
  match parseYmd s.data with
  | some (y, m, d, []) =>
    if 1 ≤ y ∧ 1 ≤ m ∧ m ≤ 12 ∧ 1 ≤ d ∧ d ≤ daysInMonth y m then some ⟨y, m, d⟩
    else none
  | _ => none

/-- The acceptance set named by the spec sentence: ISO calendar-date text with
a 4-digit year, a 2-digit month and a 2-digit day, denoting a real date. -/
def strictIsoDate (s : String) : Bool :=
  match s.data with
  | [y1, y2, y3, y4, h1, m1, m2, h2, d1, d2] =>
    y1.isDigit && y2.isDigit && y3.isDigit && y4.isDigit &&
    h1 == '-' && h2 == '-' &&
    m1.isDigit && m2.isDigit && d1.isDigit && d2.isDigit &&
    (let y := digitVal y1 * 1000 + digitVal y2 * 100 + digitVal y3 * 10 + digitVal y4
     let m := digitVal m1 * 10 + digitVal m2
     let d := digitVal d1 * 10 + digitVal d2
     decide (1 ≤ y ∧ 1 ≤ m ∧ m ≤ 12 ∧ 1 ≤ d ∧ d ≤ daysInMonth y m))
  | _ => false

/-! ## The database state and statement execution -/

/-- The status enumeration of the orders table. -/
inductive Status where
  | pending : Status
  | shipped : Status
  | arrived : Status
  | cancelled : Status
deriving DecidableEq

/-- A row of the customers table. -/
structure Customer where
  id : Int
  first_name : String
  middle_name : Option String
  last_name : String
  city : Option String
deriving DecidableEq

/-- A row of the orders table. -/
structure Order where
  id : Int
  customer_id : Int
  amount : ℚ
  status : Status
  order_date : Date
deriving DecidableEq

/-- The persisted state of the database, together with the identity sequence
counters and the current date used for DATE column defaults. -/
structure DBState where
  customers : List Customer
  orders : List Order
  nextCustomerId : Int
  nextOrderId : Int
  today : Date
deriving DecidableEq

/-- Consume one fault flag from the injected connection-failure schedule; an
exhausted schedule means no further failures. -/
def nextFault : List Bool → Bool × List Bool
  | [] => (false, [])
  | f :: fs => (f, fs)

/-- One INSERT INTO customers statement: assigns the next identity value.  A
true fault flag makes the statement fail as the connection would. -/
def execInsertCustomer (db : DBState) (fn : String) (mn : Option String) (ln : String)
    (ct : Option String) (fault : Bool) : Except Err (DBState × Int) :=
  if fault then .error (.databaseError "connection failure during INSERT INTO customers")
  else
    let cid := db.nextCustomerId
    .ok ({ db with
            customers := db.customers ++ [⟨cid, fn, mn, ln, ct⟩],
            nextCustomerId := cid + 1 }, cid)

/-- One INSERT INTO orders statement: enforces the foreign key to customers and
the non-negativity check of the amount column, assigns the next identity. -/
def execInsertOrder (db : DBState) (cid : Int) (amount : ℚ) (st : Status) (d : Date)
    (fault : Bool) : Except Err (DBState × Int) :=
  if fault then .error (.databaseError "connection failure during INSERT INTO orders")
  else if db.customers.any (fun c => decide (c.id = cid)) then
    if amount < 0 then .error (.databaseError "check constraint violation on amount")
    else
      let oid := db.nextOrderId
      .ok ({ db with
              orders := db.orders ++ [⟨oid, cid, amount, st, d⟩],
              nextOrderId := oid + 1 }, oid)
  else .error (.databaseError "foreign key violation on customer_id")

/-- Effect of TRUNCATE TABLE orders, customers RESTART IDENTITY CASCADE. -/
def truncated (db : DBState) : DBState :=
  { db with customers := [], orders := [], nextCustomerId := 1, nextOrderId := 1 }

/-- Seed tuple for the customers table, as in the executemany of reset_demo. -/
abbrev CustomerSeed := String × Option String × String × Option String

/-- Seed tuple for the orders table, as in the executemany of reset_demo. -/
abbrev OrderSeed := Int × ℚ × Status × Date

/-- The customer rows of executemany, one INSERT per seed tuple. -/
def execSeedCustomers : DBState → List Bool → List CustomerSeed →
    List Bool × Except Err DBState
  | db, faults, [] => (faults, .ok db)
  | db, faults, (fn, mn, ln, ct) :: rest =>
    let f := nextFault faults
    match execInsertCustomer db fn mn ln ct f.1 with
    | .error e => (f.2, .error e)
    | .ok r => execSeedCustomers r.1 f.2 rest

/-- The order rows of executemany, one INSERT per seed tuple. -/
def execSeedOrders : DBState → List Bool → List OrderSeed →
    List Bool × Except Err DBState
  | db, faults, [] => (faults, .ok db)
  | db, faults, (cid, amt, st, d) :: rest =>
    let f := nextFault faults
    match execInsertOrder db cid amt st d f.1 with
    | .error e => (f.2, .error e)
    | .ok r => execSeedOrders r.1 f.2 rest

/-- src/src/repository.py, reset_demo: truncate, seed customers, seed orders,
all inside one `with conn` block, so a failure of any statement rolls the
whole block back to the prior state and re-raises. -/
def reset_demo (db : DBState) (faults : List Bool) (demo_customers : List CustomerSeed)
    (demo_orders : List OrderSeed) : DBState × List Bool × Except Err Unit :=
  let f0 := nextFault faults
  if f0.1 then (db, f0.2, .error (.databaseError "connection failure during TRUNCATE"))
  else
    match execSeedCustomers (truncated db) f0.2 demo_customers with
    | (fs1, .error e) => (db, fs1, .error e)
    | (fs1, .ok db1) =>
      match execSeedOrders db1 fs1 demo_orders with
      | (fs2, .error e) => (db, fs2, .error e)
      | (fs2, .ok db2) => (db2, fs2, .ok ())

/-- Customer rows produced by seeding from a given identity counter value. -/
def seedCustomersFrom (start : Int) : List CustomerSeed → List Customer
  | [] => []
  | (fn, mn, ln, ct) :: rest => ⟨start, fn, mn, ln, ct⟩ :: seedCustomersFrom (start + 1) rest

/-- Order rows produced by seeding from a given identity counter value. -/
def seedOrdersFrom (start : Int) : List OrderSeed → List Order
  | [] => []
  | (cid, amt, st, d) :: rest => ⟨start, cid, amt, st, d⟩ :: seedOrdersFrom (start + 1) rest

/-- The state reset_demo commits on success: exactly the seeded rows, customer
ids 1..N and order ids 1..M in seed order. -/
def seededState (today : Date) (cs : List CustomerSeed) (os : List OrderSeed) : DBState :=
  ⟨seedCustomersFrom 1 cs, seedOrdersFrom 1 os, 1 + cs.length, 1 + os.length, today⟩

/-- src/src/repository.py, add_order: validate, then insert one order row with
defaulted status and order_date inside its own transaction. -/
def add_order (db : DBState) (faults : List Bool) (customer_id amount : PyVal) :
    DBState × List Bool × Except Err Int :=
  match validate_param_type "customer_id" customer_id (.single .intT) false with
  | .error e => (db, faults, .error e)
  | .ok _ =>
    match validate_param_type "amount" amount (.tuple [.floatT, .intT]) false with
    | .error e => (db, faults, .error e)
    | .ok _ =>
      if amount.toRat < 0 then
        (db, faults, .error (.valueError "Amount of order must be positive"))
      else
        let f := nextFault faults
        match execInsertOrder db customer_id.toInt amount.toRat .pending db.today f.1 with
        | .error e => (db, f.2, .error e)
        | .ok r => (r.1, f.2, .ok r.2)

/-- src/src/repository.py, insert_new_customer_with_first_order: validate, then
insert the customer inside a `with conn` block that commits when the block
ends, and only afterwards call add_order, which runs its own transaction. -/
def insert_new_customer_with_first_order (db : DBState) (faults : List Bool)
    (first_name last_name amount middle_name city : PyVal) :
    DBState × List Bool × Except Err (Int × Int) :=
  match validate_param_type "first_name" first_name (.single .strT) false with
  | .error e => (db, faults, .error e)
  | .ok _ =>
  match validate_param_type "last_name" last_name (.single .strT) false with
  | .error e => (db, faults, .error e)
  | .ok _ =>
  match validate_param_type "amount" amount (.tuple [.intT, .floatT]) false with
  | .error e => (db, faults, .error e)
  | .ok _ =>
  if amount.toRat < 0 then (db, faults, .error (.valueError "Amount of order must be positive"))
  else
  match validate_param_type "middle_name" middle_name (.single .strT) true with
  | .error e => (db, faults, .error e)
  | .ok _ =>
  match validate_param_type "city" city (.single .strT) true with
  | .error e => (db, faults, .error e)
  | .ok _ =>
    let f := nextFault faults
    match execInsertCustomer db first_name.asStr middle_name.asOptStr last_name.asStr
        city.asOptStr f.1 with
    | .error e => (db, f.2, .error e)
    | .ok r =>
      match add_order r.1 f.2 (.int r.2) amount with
      | (db2, fs2, .error e) => (db2, fs2, .error e)
      | (db2, fs2, .ok oid) => (db2, fs2, .ok (r.2, oid))

/-! ## Report queries -/

/-- Stable insertion of an element into a list kept in descending key order. -/
def insertDescBy {α : Type} (key : α → ℚ) (x : α) : List α → List α
  | [] => [x]
  | y :: ys => if key y < key x then x :: y :: ys else y :: insertDescBy key x ys

/-- ORDER BY key DESC: stable insertion sort into descending key order. -/
def sortDescBy {α : Type} (key : α → ℚ) : List α → List α
  | [] => []
  | x :: xs => insertDescBy key x (sortDescBy key xs)

/-- A single SELECT executed inside its own `with conn` block: the state is
read but never written, and a connection fault surfaces as a database error. -/
def runReadOnly {α : Type} (q : DBState → α) (db : DBState) (faults : List Bool) :
    DBState × List Bool × Except Err α :=
  if (nextFault faults).1 then
    (db, (nextFault faults).2, .error (.databaseError "connection failure during SELECT"))
  else (db, (nextFault faults).2, .ok (q db))

/-- COALESCE(c.city, the sentinel label) of the city reports. -/
def cityOf (c : Customer) : String := c.city.getD "Unbekannt"

/-- Join partner rows of one customer in the LEFT JOIN: its orders, or a single
null partner when it has none. -/
def joinFn (orders : List Order) (c : Customer) : List (Customer × Option Order) :=
  if (orders.filter (fun o => decide (c.id = o.customer_id))).isEmpty then [(c, Option.none)]
  else (orders.filter (fun o => decide (c.id = o.customer_id))).map (fun o => (c, some o))

/-- FROM customers c LEFT JOIN orders o ON c.id = o.customer_id. -/
def joinRows (db : DBState) : List (Customer × Option Order) :=
  db.customers.flatMap (joinFn db.orders)

/-- o.status NOT IN (pending, cancelled). -/
def qualStatus (s : Status) : Bool :=
  !(s == Status.pending || s == Status.cancelled)

/-- The CASE WHEN of the city report is non-null on this join row. -/
def qualPair (p : Customer × Option Order) : Bool :=
  match p.2 with
  | some o => qualStatus o.status
  | Option.none => false

/-- Weight carried by a join row: the weight of its order, zero for a null
partner. -/
def pairW {M : Type} [AddCommMonoid M] (w : Order → M) (p : Customer × Option Order) : M :=
  match p.2 with
  | some o => w o
  | Option.none => 0

/-- Amount carried by a join row, zero for a null partner. -/
def pairAmount : Customer × Option Order → ℚ := pairW Order.amount

/-- One result row of city_revenue_report_filtered. -/
structure CityRow where
  city : String
  city_orders : Nat
  city_revenue : ℚ
deriving DecidableEq

/-- The aggregate of one GROUP BY key of the city report: count and sum over
the qualifying join rows of that city. -/
def cityRow (db : DBState) (x : String) : CityRow :=
  ⟨x, (((joinRows db).filter (fun p => decide (cityOf p.1 = x))).filter qualPair).length,
    ((((joinRows db).filter (fun p => decide (cityOf p.1 = x))).filter qualPair).map
      pairAmount).sum⟩

/-- The SELECT of city_revenue_report_filtered: group the join rows by the
coalesced city, aggregate, order by revenue descending. -/
def cityRevenueQuery (db : DBState) : List CityRow :=
  sortDescBy CityRow.city_revenue
    ((((joinRows db).map (fun p => cityOf p.1)).dedup).map (cityRow db))

/-- src/src/repository.py, city_revenue_report_filtered. -/
def city_revenue_report_filtered (db : DBState) (faults : List Bool) :
    DBState × List Bool × Except Err (List CityRow) :=
  runReadOnly cityRevenueQuery db faults

/-- Full display name: first + optional middle + last, single-space joined. -/
def displayName (c : Customer) : String :=
  match c.middle_name with
  | some m => c.first_name ++ " " ++ m ++ " " ++ c.last_name
  | Option.none => c.first_name ++ " " ++ c.last_name

/-- One result row of customer_revenue_report. -/
structure CustRow where
  name : String
  city : String
  orders : Nat
  revenue : ℚ
deriving DecidableEq

/-- Modelled from the spec: the database view customer_revenue_view(name, city,
orders, revenue) is not part of src/; following sections 4.1 and 6 of the spec
it holds, for every customer, the single-space joined display name, the city
with the sentinel label substituted for NULL, the count of the orders of the
customer, and the sum of their amounts (zero when there are none). -/
def customer_revenue_view (db : DBState) : List CustRow :=
  db.customers.map (fun c =>
    ⟨displayName c, cityOf c, (db.orders.filter (fun o => decide (c.id = o.customer_id))).length,
      ((db.orders.filter (fun o => decide (c.id = o.customer_id))).map Order.amount).sum⟩)

/-- src/src/repository.py, customer_revenue_report: SELECT from the view,
ORDER BY revenue DESC. -/
def customer_revenue_report (db : DBState) (faults : List Bool) :
    DBState × List Bool × Except Err (List CustRow) :=
  runReadOnly (fun db => sortDescBy CustRow.revenue (customer_revenue_view db)) db faults

/-- One result row of status_report. -/
structure StatusRow where
  status : Status
  status_revenue : ℚ
  status_orders : Nat
deriving DecidableEq

/-- The SELECT of status_report: group orders by status, aggregate, order by
revenue descending. -/
def statusQuery (db : DBState) : List StatusRow :=
  sortDescBy StatusRow.status_revenue
    (((db.orders.map Order.status).dedup).map (fun st =>
      let g := db.orders.filter (fun o => decide (o.status = st))
      ⟨st, (g.map Order.amount).sum, g.length⟩))

/-- src/src/repository.py, status_report. -/
def status_report (db : DBState) (faults : List Bool) :
    DBState × List Bool × Except Err (List StatusRow) :=
  runReadOnly statusQuery db faults

/-- The SELECT of revenue_between_report: COALESCE(SUM(amount), 0) over the
orders whose order_date lies between the two dates inclusively. -/
def betweenSum (sd ed : Date) (db : DBState) : ℚ :=
  ((db.orders.filter (fun o => dateLe sd o.order_date && dateLe o.order_date ed)).map
      Order.amount).sum

/-- src/src/repository.py, revenue_between_report: validate both parameters as
text, parse both with strptime, reject an inverted range, then run the SELECT. -/
def revenue_between_report (db : DBState) (faults : List Bool)
    (start_date end_date : PyVal) : DBState × List Bool × Except Err ℚ :=
  match validate_param_type "start_date" start_date (.single .strT) false with
  | .error e => (db, faults, .error e)
  | .ok _ =>
  match validate_param_type "end_date" end_date (.single .strT) false with
  | .error e => (db, faults, .error e)
  | .ok _ =>
    match strptimeYmd start_date.asStr, strptimeYmd end_date.asStr with
    | some sd, some ed =>
      if dateLt ed sd then
        (db, faults, .error (.valueError ("start_date (" ++ start_date.asStr ++
          ") must not be after end_date (" ++ end_date.asStr ++ ")")))
      else runReadOnly (betweenSum sd ed) db faults
    | _, _ =>
      (db, faults, .error (.valueError ("Date format must be YYYY-MM-DD, got " ++
        start_date.asStr ++ " or " ++ end_date.asStr)))

/-! ## Claim-side characterizations -/

/-- The status values the spec says are counted by the city report. -/
def shippedOrArrived (o : Order) : Bool :=
  o.status == Status.shipped || o.status == Status.arrived

/-- The coalesced city of the customer owning an order, if any. -/
def ownerCity (customers : List Customer) (o : Order) : Option String :=
  (customers.find? (fun c => decide (c.id = o.customer_id))).map cityOf

/-- Boolean test that an order belongs to a given report city. -/
def ownerCityB (customers : List Customer) (o : Order) (x : String) : Bool :=
  match ownerCity customers o with
  | some y => decide (y = x)
  | Option.none => false

/-- The orders the spec says contribute to the row of city x: owned by a
customer of that city and shipped or arrived. -/
def cityQualOrders (db : DBState) (x : String) : List Order :=
  db.orders.filter (fun o => shippedOrArrived o && ownerCityB db.customers o x)

/-! ## Demo constants from main.py, used as concrete witnesses -/

def demoCustomers : List CustomerSeed :=
  [("Max", Option.none, "Mustermann", some "Karlsruhe"),
   ("Emanuel", Option.none, "Wambold", some "Woerth am Rhein"),
   ("Fremder", some "Unbekannter", "Kunde", some "Geheimstadt"),
   ("Keine", Option.none, "Stadt", Option.none)]

def demoOrders : List OrderSeed :=
  [(1, 29999 / 100, Status.cancelled, ⟨2026, 1, 26⟩),
   (1, 450, Status.arrived, ⟨2026, 1, 25⟩),
   (2, 1 / 2, Status.shipped, ⟨2025, 12, 31⟩),
   (3, 125075 / 100, Status.pending, ⟨2028, 1, 20⟩),
   (4, 7575 / 100, Status.arrived, ⟨2026, 1, 30⟩)]

/-- An empty database as of a fixed current date. -/
def emptyDb : DBState := ⟨[], [], 1, 1, ⟨2026, 1, 1⟩⟩

/-- A one-customer seed list used to instantiate reset_demo concretely. -/
def witnessCustomers : List CustomerSeed := [("Ada", Option.none, "Lovelace", some "London")]

/-- A one-order seed list used to instantiate reset_demo concretely. -/
def witnessOrders : List OrderSeed := [(1, 5, Status.pending, ⟨2026, 1, 2⟩)]

/-- The demo database: the state committed by a successful reset_demo. -/
def demoDb : DBState := seededState ⟨2026, 1, 1⟩ demoCustomers demoOrders

/-! ## Helper lemmas -/

lemma isNone_iff (v : PyVal) : v.isNone = true ↔ v = PyVal.none := by
  cases v <;> simp [PyVal.isNone]

lemma validate_ok_iff (n : String) (v : PyVal) (ts : PyTypeSpec) (b : Bool) :
    validate_param_type n v ts b = .ok () ↔
      (isinstance v ts = true ∨ (v = PyVal.none ∧ b = true)) := by
  unfold validate_param_type
  by_cases h1 : (b && v.isNone) = true
  · rw [if_pos h1]
    rw [Bool.and_eq_true] at h1
    exact ⟨fun _ => Or.inr ⟨(isNone_iff v).mp h1.2, h1.1⟩, fun _ => rfl⟩
  · rw [if_neg h1]
    by_cases h2 : isinstance v ts = true
    · simp [h2]
    · simp [h2]
      intro hv
      subst hv
      simp [PyVal.isNone] at h1
      exact h1

lemma validate_error_eq (n : String) (v : PyVal) (ts : PyTypeSpec) (b : Bool)
    (h1 : isinstance v ts = false) (h2 : ¬(v = PyVal.none ∧ b = true)) :
    validate_param_type n v ts b = .error (.typeError (typeErrorMsg n v ts b)) := by
  unfold validate_param_type
  have hb : (b && v.isNone) = false := by
    cases v <;> simp [PyVal.isNone]
    rw [Bool.eq_false_iff]
    exact fun hbt => h2 ⟨rfl, hbt⟩
  rw [hb]
  simp [h1]

lemma validate_error_typeError {n : String} {v : PyVal} {ts : PyTypeSpec} {b : Bool} {e : Err}
    (h : validate_param_type n v ts b = .error e) : ∃ m, e = Err.typeError m := by
  unfold validate_param_type at h
  split at h
  · exact absurd h (by simp)
  · split at h
    · exact absurd h (by simp)
    · exact ⟨_, (Except.error.inj h).symm⟩

lemma isNumeric_isinstance {v : PyVal} (h : v.isNumeric = true) :
    isinstance v (.tuple [.floatT, .intT]) = true := by
  cases v <;> simp_all [PyVal.isNumeric, isinstance, instanceOf1]

/-! ## Claims about validation -/

/-- C8: validate_param_type returns normally exactly when the value is an
instance of one of the expected types, or is None while nulls are permitted;
otherwise it raises a TypeError whose message names the parameter, the
expected type or types, and the observed type, and it has no side effects
(it is a pure function of its arguments by construction). -/
theorem c8_validate_param_type (n : String) (v : PyVal) (ts : PyTypeSpec) (b : Bool) :
    (validate_param_type n v ts b = .ok () ↔
      (isinstance v ts = true ∨ (v = PyVal.none ∧ b = true))) ∧
    (validate_param_type n v ts b ≠ .ok () →
      validate_param_type n v ts b =
        .error (.typeError (n ++ " must be " ++ typeSpecName ts ++
          (if b then " or None" else "") ++ ", got " ++ pyTypeName v.typeOf ++ " instead"))) := by
  refine ⟨validate_ok_iff n v ts b, fun hne => ?_⟩
  have h1 : isinstance v ts = false := by
    cases hi : isinstance v ts
    · rfl
    · exact absurd ((validate_ok_iff n v ts b).mpr (Or.inl hi)) hne
  have h2 : ¬(v = PyVal.none ∧ b = true) := fun hc =>
    hne ((validate_ok_iff n v ts b).mpr (Or.inr hc))
  exact validate_error_eq n v ts b h1 h2

/-- C8 witness: a concrete failing validation carries the parameter name, the
joined expected-type names, and the observed type name in its message. -/
theorem c8_validate_param_type_witness :
    validate_param_type "amount" (.str "abc") (.tuple [.floatT, .intT]) false ≠
      Except.ok () ∧
    validate_param_type "amount" (.str "abc") (.tuple [.floatT, .intT]) false =
      .error (.typeError "amount must be float, int, got str instead") := by
  have h := (c8_validate_param_type "amount" (.str "abc") (.tuple [.floatT, .intT]) false).2
    (by decide)
  exact ⟨by decide, by rw [h]; rfl⟩

/-- C10: because bool is a subclass of int in Python, isinstance lets boolean
values through wherever int (or the numeric tuple) is expected: with
customer_id = True and amount = True, the validation of add_order raises
nothing and the call proceeds to the database insert, persisting a new order
row. -/
theorem c10_bool_passes_int_validation :
    validate_param_type "customer_id" (.bool true) (.single .intT) false = .ok () ∧
    validate_param_type "amount" (.bool true) (.tuple [.floatT, .intT]) false = .ok () ∧
    (add_order demoDb [false] (.bool true) (.bool true)).2.2 = .ok 6 ∧
    ((add_order demoDb [false] (.bool true) (.bool true)).1).orders.length =
      demoDb.orders.length + 1 := by
  refine ⟨by decide, by decide, by decide, by decide⟩

/-- C2: for every customer_id value and every negative numeric amount,
add_order fails with a validation error (TypeError or ValueError) raised
before any database statement runs: the returned state is the input state and
the fault schedule is untouched, so no order row is persisted. -/
theorem c2_add_order_negative_amount (db : DBState) (faults : List Bool)
    (customer_id amount : PyVal) (hnum : amount.isNumeric = true)
    (hneg : amount.toRat < 0) :
    ∃ e, add_order db faults customer_id amount = (db, faults, .error e) ∧
      e.isValidation = true := by
  unfold add_order
  cases hv : validate_param_type "customer_id" customer_id (.single .intT) false with
  | error e =>
    obtain ⟨m, hm⟩ := validate_error_typeError hv
    exact ⟨e, rfl, by rw [hm]; rfl⟩
  | ok u =>
    cases u
    rw [(validate_ok_iff "amount" amount (.tuple [.floatT, .intT]) false).mpr
      (Or.inl (isNumeric_isinstance hnum))]
    rw [if_pos hneg]
    exact ⟨.valueError "Amount of order must be positive", rfl, rfl⟩

/-- C2 witness: add_order with amount -0.01 on the demo database fails with a
validation error and leaves state and fault schedule untouched. -/
theorem c2_add_order_negative_amount_witness :
    ∃ e, add_order demoDb [true] (.int 7) (.float (-1 / 100)) =
      (demoDb, [true], .error e) ∧ e.isValidation = true :=
  c2_add_order_negative_amount demoDb [true] (.int 7) (.float (-1 / 100)) (by decide)
    (by norm_num [PyVal.toRat])

/-! ## Date-order helper lemmas and claims about revenue_between_report -/

lemma dateLt_eq_false_of_le {a b : Date} (h : dateLe a b = true) : dateLt b a = false := by
  obtain ⟨ay, am, ad⟩ := a
  obtain ⟨b1, b2, b3⟩ := b
  simp only [dateLe, Bool.or_eq_true, Bool.and_eq_true, decide_eq_true_eq, beq_iff_eq] at h
  rw [Bool.eq_false_iff]
  simp only [ne_eq, dateLt, Bool.or_eq_true, Bool.and_eq_true, decide_eq_true_eq, beq_iff_eq]
  omega

lemma validate_str_ok (n : String) (s : String) :
    validate_param_type n (.str s) (.single .strT) false = .ok () := rfl

/-- C3 counterexample: the text 2025-1-5 is not in the 4-digit-year,
2-digit-month, 2-digit-day ISO form the claim names, yet revenue_between_report
accepts it and answers from the database instead of raising a validation
error. -/
theorem c3_counterexample_lenient_dates :
    strictIsoDate "2025-1-5" = false ∧
    strptimeYmd "2025-1-5" = some ⟨2025, 1, 5⟩ ∧
    (revenue_between_report demoDb [false] (.str "2025-1-5") (.str "2025-1-5")).2.2 =
      .ok 0 := by
  refine ⟨by decide, by decide, by decide⟩

/-- C3 amended: revenue_between_report accepts exactly the strings strptime
parses with the %Y-%m-%d pattern — a 4-digit year, a month of one or two
digits, a day of one or two digits (optionally zero- or space-padded),
forming a real calendar date — and for every input pair where either date
fails to parse in that form, or where the parsed start date is after the end
date, it raises a ValueError before any database contact: the state and the
fault schedule are returned untouched, for every database. -/
theorem c3_amended_date_validation (db : DBState) (faults : List Bool) (s e : String) :
    ((strptimeYmd s = Option.none ∨ strptimeYmd e = Option.none ∨
        (∃ sd ed, strptimeYmd s = some sd ∧ strptimeYmd e = some ed ∧
          dateLt ed sd = true)) →
      ∃ m, revenue_between_report db faults (.str s) (.str e) =
        (db, faults, .error (.valueError m))) ∧
    (∀ sd ed, strptimeYmd s = some sd → strptimeYmd e = some ed →
      dateLt ed sd = false →
      revenue_between_report db faults (.str s) (.str e) =
        runReadOnly (betweenSum sd ed) db faults) := by
  constructor
  · intro h
    unfold revenue_between_report
    rw [validate_str_ok, validate_str_ok]
    simp only [PyVal.asStr]
    rcases h with hs | he | ⟨sd, ed, hs, he, hlt⟩
    · rw [hs]
      cases he : strptimeYmd e <;> exact ⟨_, rfl⟩
    · rw [he]
      cases hs : strptimeYmd s <;> exact ⟨_, rfl⟩
    · rw [hs, he]
      simp only [hlt, if_true]
      exact ⟨_, rfl⟩
  · intro sd ed hs he hlt
    unfold revenue_between_report
    rw [validate_str_ok, validate_str_ok]
    simp only [PyVal.asStr]
    rw [hs, he]
    simp only [hlt, Bool.false_eq_true, if_false]

/-- C3 amended witness: an inverted range raises the validation error, and a
well-formed range reaches the query. -/
theorem c3_amended_date_validation_witness :
    ∃ m, revenue_between_report demoDb [false] (.str "2026-01-25") (.str "2025-12-01") =
      (demoDb, [false], .error (.valueError m)) :=
  (c3_amended_date_validation demoDb [false] "2026-01-25" "2025-12-01").1
    (Or.inr (Or.inr ⟨⟨2026, 1, 25⟩, ⟨2025, 12, 1⟩, by decide, by decide, by decide⟩))

/-- C6: for validly formatted dates with startDate at most endDate, the report
sums the amounts of exactly the orders whose date lies in the closed interval,
and yields zero when no order lies in it. -/
theorem c6_revenue_between_inclusive (db : DBState) (faults : List Bool)
    (s e : String) (sd ed : Date) (hs : strptimeYmd s = some sd)
    (he : strptimeYmd e = some ed) (hord : dateLe sd ed = true)
    (hf : (nextFault faults).1 = false) :
    revenue_between_report db faults (.str s) (.str e) =
      (db, (nextFault faults).2, .ok (((db.orders.filter (fun o =>
        dateLe sd o.order_date && dateLe o.order_date ed)).map Order.amount).sum)) ∧
    (db.orders.filter (fun o => dateLe sd o.order_date && dateLe o.order_date ed) = [] →
      revenue_between_report db faults (.str s) (.str e) =
        (db, (nextFault faults).2, .ok 0)) := by
  have hlt : dateLt ed sd = false := dateLt_eq_false_of_le hord
  have hmain : revenue_between_report db faults (.str s) (.str e) =
      (db, (nextFault faults).2, .ok (betweenSum sd ed db)) := by
    unfold revenue_between_report
    rw [validate_str_ok, validate_str_ok]
    simp only [PyVal.asStr]
    rw [hs, he]
    simp only [hlt, Bool.false_eq_true, if_false]
    unfold runReadOnly
    rw [if_neg (by rw [hf]; exact Bool.false_ne_true)]
  refine ⟨hmain, fun hnone => ?_⟩
  rw [hmain]
  unfold betweenSum
  rw [hnone]
  rfl

/-- C6 witness: over the seeded demo orders, the range 2025-12-01 to
2026-01-25 includes the orders dated 2025-12-31 and 2026-01-25 and excludes
the rest, totalling 450.50. -/
theorem c6_revenue_between_inclusive_witness :
    revenue_between_report demoDb [false] (.str "2025-12-01") (.str "2026-01-25") =
      (demoDb, [], .ok (901 / 2)) := by
  have h := (c6_revenue_between_inclusive demoDb [false] "2025-12-01" "2026-01-25"
    ⟨2025, 12, 1⟩ ⟨2026, 1, 25⟩ (by decide) (by decide) (by decide) rfl).1
  rw [h]
  norm_num [demoDb, seededState, demoCustomers, demoOrders, seedOrdersFrom, seedCustomersFrom,
    nextFault, dateLe, List.filter, (show (2028 == 2026) = false from rfl)]

/-! ## Claim about the two-transaction bug of insert_new_customer_with_first_order -/

/-- C1 exhibit: insert_new_customer_with_first_order is not atomic.  On an
empty database with valid input, when the customer INSERT succeeds and the
subsequent order INSERT fails, the call raises a database error yet the new
customer row stays committed while no order row exists — the customer block
committed before add_order opened its own second transaction. -/
theorem c1_non_atomic_exhibit :
    (insert_new_customer_with_first_order emptyDb [false, true] (.str "Neuer") (.str "Kunde")
      (.float (9999 / 100)) .none .none).2.2 =
      .error (.databaseError "connection failure during INSERT INTO orders") ∧
    ((insert_new_customer_with_first_order emptyDb [false, true] (.str "Neuer") (.str "Kunde")
      (.float (9999 / 100)) .none .none).1) =
      ⟨[⟨1, "Neuer", Option.none, "Kunde", Option.none⟩], [], 2, 1, ⟨2026, 1, 1⟩⟩ := by
  have h0 : ¬ ((9999 : ℚ) / 100 < 0) := by norm_num
  simp [insert_new_customer_with_first_order, add_order, validate_param_type, isinstance,
    instanceOf1, PyVal.isNone, typeErrorMsg, nextFault, execInsertCustomer, execInsertOrder,
    emptyDb, h0, PyVal.asStr, PyVal.asOptStr, PyVal.toInt, PyVal.toRat]

/-! ## Claim that reports do not mutate state -/

lemma runReadOnly_fst {α : Type} (q : DBState → α) (db : DBState) (faults : List Bool) :
    (runReadOnly q db faults).1 = db := by
  unfold runReadOnly
  split <;> rfl

/-- C9: every report operation returns the database state it was given, both
when the query answers and when it fails, for every state and every fault
schedule: reports never mutate data. -/
theorem c9_reports_leave_state_unchanged (db : DBState) (faults : List Bool) (a b : PyVal) :
    (customer_revenue_report db faults).1 = db ∧
    (city_revenue_report_filtered db faults).1 = db ∧
    (status_report db faults).1 = db ∧
    (revenue_between_report db faults a b).1 = db := by
  refine ⟨runReadOnly_fst _ _ _, runReadOnly_fst _ _ _, runReadOnly_fst _ _ _, ?_⟩
  unfold revenue_between_report
  cases validate_param_type "start_date" a (.single .strT) false with
  | error e => rfl
  | ok u =>
    cases u
    cases validate_param_type "end_date" b (.single .strT) false with
    | error e => rfl
    | ok u =>
      cases u
      cases strptimeYmd a.asStr with
      | none => rfl
      | some sd =>
        cases strptimeYmd b.asStr with
        | none => rfl
        | some ed =>
          by_cases hlt : dateLt ed sd = true
          · simp only [hlt, if_true]
          · rw [Bool.not_eq_true] at hlt
            simp only [hlt, Bool.false_eq_true, if_false]
            exact runReadOnly_fst _ _ _

/-! ## Helper lemmas for reset_demo -/

lemma execInsertCustomer_error {db : DBState} {fn : String} {mn : Option String} {ln : String}
    {ct : Option String} {fault : Bool} {e : Err}
    (h : execInsertCustomer db fn mn ln ct fault = .error e) : ∃ m, e = Err.databaseError m := by
  unfold execInsertCustomer at h
  split at h
  · exact ⟨_, (Except.error.inj h).symm⟩
  · exact absurd h (by simp)

lemma execInsertOrder_error {db : DBState} {cid : Int} {amount : ℚ} {st : Status} {d : Date}
    {fault : Bool} {e : Err}
    (h : execInsertOrder db cid amount st d fault = .error e) : ∃ m, e = Err.databaseError m := by
  unfold execInsertOrder at h
  split at h
  · exact ⟨_, (Except.error.inj h).symm⟩
  · split at h
    · split at h
      · exact ⟨_, (Except.error.inj h).symm⟩
      · exact absurd h (by simp)
    · exact ⟨_, (Except.error.inj h).symm⟩

lemma execSeedCustomers_ok (cs : List CustomerSeed) :
    ∀ (db : DBState) (faults fs : List Bool) (db' : DBState),
      execSeedCustomers db faults cs = (fs, .ok db') →
      db' = { db with
              customers := db.customers ++ seedCustomersFrom db.nextCustomerId cs,
              nextCustomerId := db.nextCustomerId + cs.length } := by
  induction cs with
  | nil =>
    intro db faults fs db' h
    unfold execSeedCustomers at h
    injection h with h1 h2
    injection h2 with h2
    subst h2
    simp [seedCustomersFrom]
  | cons t rest ih =>
    obtain ⟨fn, mn, ln, ct⟩ := t
    intro db faults fs db' h
    unfold execSeedCustomers at h
    rcases hnf : nextFault faults with ⟨b1, fs1⟩
    rw [hnf] at h
    cases b1
    · simp only [execInsertCustomer, Bool.false_eq_true, if_false] at h
      have := ih _ _ _ _ h
      rw [this]
      simp [seedCustomersFrom, List.append_assoc]
      omega
    · simp [execInsertCustomer] at h

lemma execSeedCustomers_error (cs : List CustomerSeed) :
    ∀ (db : DBState) (faults fs : List Bool) (e : Err),
      execSeedCustomers db faults cs = (fs, .error e) → ∃ m, e = Err.databaseError m := by
  induction cs with
  | nil =>
    intro db faults fs e h
    unfold execSeedCustomers at h
    injection h with h1 h2
    exact absurd h2 (by simp)
  | cons t rest ih =>
    obtain ⟨fn, mn, ln, ct⟩ := t
    intro db faults fs e h
    unfold execSeedCustomers at h
    rcases hnf : nextFault faults with ⟨b1, fs1⟩
    simp only [hnf] at h
    cases hrun : execInsertCustomer db fn mn ln ct b1 with
    | error e2 =>
      simp only [hrun] at h
      injection h with h1 h2
      obtain ⟨m, hm⟩ := execInsertCustomer_error hrun
      exact ⟨m, by rw [← Except.error.inj h2, hm]⟩
    | ok r =>
      simp only [hrun] at h
      exact ih _ _ _ _ h

lemma execSeedOrders_ok (os : List OrderSeed) :
    ∀ (db : DBState) (faults fs : List Bool) (db' : DBState),
      execSeedOrders db faults os = (fs, .ok db') →
      db' = { db with
              orders := db.orders ++ seedOrdersFrom db.nextOrderId os,
              nextOrderId := db.nextOrderId + os.length } := by
  induction os with
  | nil =>
    intro db faults fs db' h
    unfold execSeedOrders at h
    injection h with h1 h2
    injection h2 with h2
    subst h2
    simp [seedOrdersFrom]
  | cons t rest ih =>
    obtain ⟨cid, amt, st, d⟩ := t
    intro db faults fs db' h
    unfold execSeedOrders at h
    rcases hnf : nextFault faults with ⟨b1, fs1⟩
    simp only [hnf] at h
    cases hrun : execInsertOrder db cid amt st d b1 with
    | error e2 =>
      simp only [hrun] at h
      injection h with h1 h2
      exact Except.noConfusion h2
    | ok r =>
      obtain ⟨dbr, oid⟩ := r
      simp only [hrun] at h
      have hr := hrun
      unfold execInsertOrder at hr
      split at hr
      · exact absurd hr (by simp)
      · split at hr
        · split at hr
          · exact absurd hr (by simp)
          · have hp := Except.ok.inj hr
            injection hp with hp1 hp2
            have hd := ih _ _ _ _ h
            rw [hd, ← hp1]
            simp [seedOrdersFrom, List.append_assoc]
            omega
        · exact absurd hr (by simp)

lemma execSeedOrders_error (os : List OrderSeed) :
    ∀ (db : DBState) (faults fs : List Bool) (e : Err),
      execSeedOrders db faults os = (fs, .error e) → ∃ m, e = Err.databaseError m := by
  induction os with
  | nil =>
    intro db faults fs e h
    unfold execSeedOrders at h
    injection h with h1 h2
    exact absurd h2 (by simp)
  | cons t rest ih =>
    obtain ⟨cid, amt, st, d⟩ := t
    intro db faults fs e h
    unfold execSeedOrders at h
    rcases hnf : nextFault faults with ⟨b1, fs1⟩
    simp only [hnf] at h
    cases hrun : execInsertOrder db cid amt st d b1 with
    | error e2 =>
      simp only [hrun] at h
      injection h with h1 h2
      obtain ⟨m, hm⟩ := execInsertOrder_error hrun
      exact ⟨m, by rw [← Except.error.inj h2, hm]⟩
    | ok r =>
      simp only [hrun] at h
      exact ih _ _ _ _ h

/-- C7: reset_demo is atomic.  Whenever it returns normally the committed
state consists of exactly the seeded rows — customers numbered 1..N and
orders numbered 1..M in seed order, with fresh identity counters — and
whenever any of its statements fails the prior state is returned intact and
the surfaced error is a database error. -/
theorem c7_reset_demo_atomic (db : DBState) (faults : List Bool) (cs : List CustomerSeed)
    (os : List OrderSeed) :
    (∀ db' fs, reset_demo db faults cs os = (db', fs, .ok ()) →
      db' = seededState db.today cs os) ∧
    (∀ db' fs e, reset_demo db faults cs os = (db', fs, .error e) →
      db' = db ∧ ∃ m, e = Err.databaseError m) := by
  constructor
  · intro db' fs h
    unfold reset_demo at h
    rcases hnf : nextFault faults with ⟨b1, fs0⟩
    simp only [hnf] at h
    split at h
    · exact absurd h (by simp)
    · split at h
      · exact absurd h (by simp)
      · split at h
        · exact absurd h (by simp)
        · rename_i x1 fs1 db1 hc x2 fs2 db2 ho
          injection h with ha hb
          rw [← ha, execSeedOrders_ok os _ _ _ _ ho, execSeedCustomers_ok cs _ _ _ _ hc]
          simp [truncated, seededState]
  · intro db' fs e h
    unfold reset_demo at h
    rcases hnf : nextFault faults with ⟨b1, fs0⟩
    simp only [hnf] at h
    split at h
    · injection h with ha hb
      injection hb with hb1 hb2
      exact ⟨ha.symm, _, (Except.error.inj hb2).symm⟩
    · split at h
      · rename_i x1 fs1 e2 hc
        injection h with ha hb
        injection hb with hb1 hb2
        obtain ⟨m, hm⟩ := execSeedCustomers_error cs _ _ _ _ hc
        exact ⟨ha.symm, m, by rw [← Except.error.inj hb2, hm]⟩
      · split at h
        · rename_i x1 fs1 db1 hc x2 fs2 e2 ho
          injection h with ha hb
          injection hb with hb1 hb2
          obtain ⟨m, hm⟩ := execSeedOrders_error os _ _ _ _ ho
          exact ⟨ha.symm, m, by rw [← Except.error.inj hb2, hm]⟩
        · exact absurd h (by simp)

/-- C7 witness: running reset_demo on the empty database with a concrete seed
list commits exactly the seeded rows with identities assigned from 1. -/
theorem c7_reset_demo_atomic_witness :
    (⟨[⟨1, "Ada", Option.none, "Lovelace", some "London"⟩],
      [⟨1, 1, 5, Status.pending, ⟨2026, 1, 2⟩⟩], 2, 2, ⟨2026, 1, 1⟩⟩ : DBState) =
      seededState emptyDb.today witnessCustomers witnessOrders :=
  (c7_reset_demo_atomic emptyDb [] witnessCustomers witnessOrders).1 _ [] (by decide)

/-! ## Sorting lemmas -/

lemma insertDescBy_perm {α : Type} (key : α → ℚ) (x : α) (l : List α) :
    List.Perm (insertDescBy key x l) (x :: l) := by
  induction l with
  | nil => exact List.Perm.refl _
  | cons y ys ih =>
    unfold insertDescBy
    split
    · exact List.Perm.refl _
    · exact (List.Perm.cons y ih).trans (List.Perm.swap x y ys)

lemma sortDescBy_perm {α : Type} (key : α → ℚ) (l : List α) :
    List.Perm (sortDescBy key l) l := by
  induction l with
  | nil => exact List.Perm.refl _
  | cons x xs ih => exact (insertDescBy_perm key x _).trans (List.Perm.cons x ih)

lemma insertDescBy_sorted {α : Type} (key : α → ℚ) (x : α) (l : List α)
    (h : l.Pairwise (fun a b => key b ≤ key a)) :
    (insertDescBy key x l).Pairwise (fun a b => key b ≤ key a) := by
  induction l with
  | nil => simp [insertDescBy]
  | cons y ys ih =>
    rw [List.pairwise_cons] at h
    obtain ⟨hy, hys⟩ := h
    unfold insertDescBy
    split
    · rename_i hlt
      refine List.pairwise_cons.mpr ⟨?_, List.pairwise_cons.mpr ⟨hy, hys⟩⟩
      intro z hz
      rcases List.mem_cons.mp hz with rfl | hz2
      · exact le_of_lt hlt
      · exact (hy z hz2).trans (le_of_lt hlt)
    · rename_i hnlt
      refine List.pairwise_cons.mpr ⟨?_, ih hys⟩
      intro z hz
      have hz2 : z ∈ x :: ys := (insertDescBy_perm key x ys).mem_iff.mp hz
      rcases List.mem_cons.mp hz2 with rfl | hz3
      · exact le_of_not_lt hnlt
      · exact hy z hz3

lemma sortDescBy_sorted {α : Type} (key : α → ℚ) (l : List α) :
    (sortDescBy key l).Pairwise (fun a b => key b ≤ key a) := by
  induction l with
  | nil => simp [sortDescBy]
  | cons x xs ih => exact insertDescBy_sorted key x _ ih

/-! ## Claim about customer_revenue_report -/

/-- C5: customer_revenue_report returns one row per customer — customers with
zero orders included, with count 0 and amount 0 — carrying the single-space
joined display name (no double space when the middle name is absent), the
sentinel city label for a null city, the order count and the summed amount,
ordered by amount descending. -/
theorem c5_customer_revenue_report (db : DBState) (faults : List Bool)
    (hf : (nextFault faults).1 = false) :
    ∃ rows, customer_revenue_report db faults = (db, (nextFault faults).2, .ok rows) ∧
      List.Perm rows (customer_revenue_view db) ∧
      rows.length = db.customers.length ∧
      (∀ c ∈ db.customers,
        (⟨displayName c, cityOf c,
          (db.orders.filter (fun o => decide (c.id = o.customer_id))).length,
          ((db.orders.filter (fun o => decide (c.id = o.customer_id))).map Order.amount).sum⟩ :
            CustRow) ∈ rows) ∧
      (∀ c ∈ db.customers, db.orders.filter (fun o => decide (c.id = o.customer_id)) = [] →
        (⟨displayName c, cityOf c, 0, 0⟩ : CustRow) ∈ rows) ∧
      (∀ c : Customer, c.middle_name = Option.none →
        displayName c = c.first_name ++ " " ++ c.last_name) ∧
      rows.Pairwise (fun a b => b.revenue ≤ a.revenue) := by
  refine ⟨sortDescBy CustRow.revenue (customer_revenue_view db), ?_, ?_, ?_, ?_, ?_, ?_, ?_⟩
  · unfold customer_revenue_report runReadOnly
    rw [if_neg (by rw [hf]; exact Bool.false_ne_true)]
  · exact sortDescBy_perm _ _
  · rw [(sortDescBy_perm _ _).length_eq]
    simp [customer_revenue_view]
  · intro c hc
    refine (sortDescBy_perm _ _).mem_iff.mpr ?_
    exact List.mem_map.mpr ⟨c, hc, rfl⟩
  · intro c hc hnil
    refine (sortDescBy_perm _ _).mem_iff.mpr ?_
    refine List.mem_map.mpr ⟨c, hc, ?_⟩
    simp [hnil]
  · intro c hmn
    unfold displayName
    rw [hmn]
  · exact sortDescBy_sorted _ _

/-- C5 witness: on the seeded demo database the report returns the state
unchanged and one row per customer. -/
theorem c5_customer_revenue_report_witness :
    ∃ rows, customer_revenue_report demoDb [false] = (demoDb, [], .ok rows) ∧
      rows.length = demoDb.customers.length := by
  obtain ⟨rows, h1, h2, h3, hrest⟩ := c5_customer_revenue_report demoDb [false] rfl
  exact ⟨rows, h1, h3⟩

/-! ## Lemmas about the city-report LEFT JOIN -/

lemma joinFn_fst (orders : List Order) (c : Customer) : ∀ p ∈ joinFn orders c, p.1 = c := by
  intro p hp
  unfold joinFn at hp
  split at hp
  · rw [List.mem_singleton.mp hp]
  · obtain ⟨o, ho, rfl⟩ := List.mem_map.mp hp
    rfl

lemma joinFn_ne_nil (orders : List Order) (c : Customer) : joinFn orders c ≠ [] := by
  unfold joinFn
  split
  · simp
  · rename_i hne
    intro hmap
    rw [List.map_eq_nil_iff] at hmap
    exact hne (by rw [hmap]; rfl)

lemma mem_join_city (customers : List Customer) (orders : List Order) (x : String) :
    x ∈ (customers.flatMap (joinFn orders)).map (fun p => cityOf p.1) ↔
      ∃ c ∈ customers, cityOf c = x := by
  induction customers with
  | nil => simp
  | cons c cs ih =>
    rw [List.flatMap_cons, List.map_append, List.mem_append, ih]
    constructor
    · rintro (hx | hx)
      · obtain ⟨p, hp, rfl⟩ := List.mem_map.mp hx
        exact ⟨c, List.mem_cons_self c cs, by rw [joinFn_fst orders c p hp]⟩
      · obtain ⟨c2, hc2, hcx⟩ := hx
        exact ⟨c2, List.mem_cons_of_mem c hc2, hcx⟩
    · rintro ⟨c2, hc2, hcx⟩
      rcases List.mem_cons.mp hc2 with rfl | hc3
      · left
        obtain ⟨p, hp⟩ := List.exists_mem_of_ne_nil _ (joinFn_ne_nil orders c2)
        exact List.mem_map.mpr ⟨p, hp, by rw [joinFn_fst orders c2 p hp, hcx]⟩
      · right
        exact ⟨c2, hc3, hcx⟩

lemma joinFn_city_sum {M : Type} [AddCommMonoid M] (w : Order → M) (orders : List Order)
    (c : Customer) (x : String) :
    (((joinFn orders c).filter (fun p => decide (cityOf p.1 = x))).map (pairW w)).sum
      = if cityOf c = x then
          ((orders.filter (fun o => decide (c.id = o.customer_id))).map w).sum
        else 0 := by
  unfold joinFn
  by_cases hx : cityOf c = x
  · rw [if_pos hx]
    split
    · rename_i hemp
      have hnil : orders.filter (fun o => decide (c.id = o.customer_id)) = [] :=
        List.isEmpty_iff.mp hemp
      rw [hnil]
      simp [pairW, hx]
    · rw [List.filter_map]
      have h1 : (orders.filter (fun o => decide (c.id = o.customer_id))).filter
          ((fun p => decide (cityOf p.1 = x)) ∘ (fun o => (c, some o)))
          = orders.filter (fun o => decide (c.id = o.customer_id)) := by
        apply List.filter_eq_self.mpr
        intro o ho
        simp [Function.comp, hx]
      rw [h1, List.map_map]
      exact congrArg List.sum (List.map_congr_left (fun o _ => rfl))
  · rw [if_neg hx]
    split
    · simp [hx]
    · rw [List.filter_map]
      have h1 : (orders.filter (fun o => decide (c.id = o.customer_id))).filter
          ((fun p => decide (cityOf p.1 = x)) ∘ (fun o => (c, some o))) = [] := by
        apply List.filter_eq_nil_iff.mpr
        intro o ho
        simp [Function.comp, hx]
      rw [h1]
      rfl

lemma join_city_sum {M : Type} [AddCommMonoid M] (w : Order → M) (customers : List Customer)
    (orders : List Order) (x : String) :
    (((customers.flatMap (joinFn orders)).filter
        (fun p => decide (cityOf p.1 = x))).map (pairW w)).sum
      = ((customers.filter (fun c => decide (cityOf c = x))).map
          (fun c => ((orders.filter (fun o => decide (c.id = o.customer_id))).map w).sum)).sum := by
  induction customers with
  | nil => rfl
  | cons c cs ih =>
    rw [List.flatMap_cons, List.filter_append, List.map_append, List.sum_append, ih,
      List.filter_cons, joinFn_city_sum]
    by_cases hx : cityOf c = x
    · simp [hx]
    · simp [hx]

lemma owner_filter_cons {M : Type} [AddCommMonoid M] (w : Order → M) (c : Customer)
    (cs : List Customer) (x : String) (orders : List Order) :
    ((orders.filter (fun o => ownerCityB (c :: cs) o x)).map w).sum
      = ((orders.filter (fun o =>
          decide (c.id = o.customer_id) && decide (cityOf c = x))).map w).sum
        + ((orders.filter (fun o =>
            !decide (c.id = o.customer_id) && ownerCityB cs o x)).map w).sum := by
  induction orders with
  | nil => simp
  | cons o os ih =>
    simp only [List.filter_cons]
    by_cases h1 : c.id = o.customer_id
    · have ho : ownerCityB (c :: cs) o x = decide (cityOf c = x) := by
        unfold ownerCityB ownerCity
        rw [List.find?_cons_of_pos _ (by simp [h1])]
        simp
      by_cases h2 : cityOf c = x
      · simp only [ho, h1, h2, decide_True, Bool.and_self, Bool.not_true, Bool.false_and,
          if_true, Bool.false_eq_true, if_false, List.map_cons, List.sum_cons, ih]
        rw [add_assoc]
      · simp only [ho, h1, h2, decide_True, decide_False, Bool.true_and, Bool.not_true,
          Bool.false_and, Bool.false_eq_true, if_false, ih]
    · have ho : ownerCityB (c :: cs) o x = ownerCityB cs o x := by
        unfold ownerCityB ownerCity
        rw [List.find?_cons_of_neg _ (by simp [h1])]
      have hd : decide (c.id = o.customer_id) = false := by simp [h1]
      cases h3 : ownerCityB cs o x
      · simp only [ho, h3, hd, Bool.and_false, Bool.false_and, Bool.not_false, Bool.true_and,
          Bool.false_eq_true, if_false, ih]
      · simp only [ho, h3, hd, Bool.false_and, Bool.not_false, Bool.true_and, Bool.and_true,
          if_true, Bool.false_eq_true, if_false, List.map_cons, List.sum_cons, ih]
        rw [add_left_comm]

lemma nested_owner_sum {M : Type} [AddCommMonoid M] (w : Order → M) :
    ∀ (customers : List Customer), (customers.map Customer.id).Nodup →
    ∀ (orders : List Order) (x : String),
    ((customers.filter (fun c => decide (cityOf c = x))).map
        (fun c => ((orders.filter (fun o => decide (c.id = o.customer_id))).map w).sum)).sum
      = ((orders.filter (fun o => ownerCityB customers o x)).map w).sum := by
  intro customers
  induction customers with
  | nil =>
    intro _ orders x
    have hnil : orders.filter (fun o => ownerCityB [] o x) = [] := by
      apply List.filter_eq_nil_iff.mpr
      intro o ho
      simp [ownerCityB, ownerCity]
    rw [hnil]
    rfl
  | cons c cs ih =>
    intro hnd orders x
    have hnd1 : c.id ∉ cs.map Customer.id := (List.nodup_cons.mp hnd).1
    have hnd2 : (cs.map Customer.id).Nodup := (List.nodup_cons.mp hnd).2
    rw [owner_filter_cons w c cs x orders, List.filter_cons]
    have hterm2 : ((orders.filter (fun o =>
          !decide (c.id = o.customer_id) && ownerCityB cs o x)).map w).sum
        = (((orders.filter (fun o => !decide (c.id = o.customer_id))).filter
            (fun o => ownerCityB cs o x)).map w).sum := by
      rw [List.filter_filter]
      apply congrArg List.sum
      apply congrArg (List.map w)
      apply List.filter_congr
      intro o ho
      exact Bool.and_comm _ _
    have hstab : ((cs.filter (fun c2 => decide (cityOf c2 = x))).map
          (fun c2 => ((orders.filter (fun o => decide (c2.id = o.customer_id))).map w).sum)).sum
        = ((cs.filter (fun c2 => decide (cityOf c2 = x))).map
          (fun c2 => (((orders.filter (fun o => !decide (c.id = o.customer_id))).filter
            (fun o => decide (c2.id = o.customer_id))).map w).sum)).sum := by
      apply congrArg List.sum
      apply List.map_congr_left
      intro c2 hc2
      have hc2m : c2 ∈ cs := List.mem_of_mem_filter hc2
      have hne : c2.id ≠ c.id := by
        intro hEq
        exact hnd1 (hEq ▸ List.mem_map_of_mem Customer.id hc2m)
      have hfe : (orders.filter (fun o => !decide (c.id = o.customer_id))).filter
            (fun o => decide (c2.id = o.customer_id))
          = orders.filter (fun o => decide (c2.id = o.customer_id)) := by
        rw [List.filter_filter]
        apply List.filter_congr
        intro o ho
        by_cases h4 : c2.id = o.customer_id
        · have h5 : ¬ (c.id = o.customer_id) := fun hcc => hne (by rw [h4, hcc])
          simp [h4, h5]
        · simp [h4]
      rw [hfe]
    have hkey := ih hnd2 (orders.filter (fun o => !decide (c.id = o.customer_id))) x
    by_cases hx : cityOf c = x
    · simp only [hx, decide_True, if_true, List.map_cons, List.sum_cons]
      rw [hstab, hkey, hterm2]
      congr 1
      apply congrArg List.sum
      apply congrArg (List.map w)
      apply List.filter_congr
      intro o ho
      simp [hx]
    · have hxd : decide (cityOf c = x) = false := by simp [hx]
      simp only [hxd, Bool.false_eq_true, if_false, Bool.and_false, List.filter_false,
        List.map_nil, List.sum_nil, zero_add]
      rw [hstab, hkey, hterm2]

lemma sum_filter_qualPair {M : Type} [AddCommMonoid M] (w : Order → M)
    (l : List (Customer × Option Order)) :
    ((l.filter qualPair).map (pairW w)).sum
      = (l.map (pairW (fun o => if qualStatus o.status then w o else 0))).sum := by
  induction l with
  | nil => rfl
  | cons p ps ih =>
    rw [List.filter_cons, List.map_cons, List.sum_cons]
    rcases hp2 : p.2 with _ | o
    · have hq : qualPair p = false := by simp [qualPair, hp2]
      have h0 : pairW (fun o => if qualStatus o.status then w o else 0) p = 0 := by
        simp [pairW, hp2]
      rw [hq, h0]
      simp only [Bool.false_eq_true, if_false]
      rw [ih, zero_add]
    · by_cases hqs : qualStatus o.status = true
      · have hq : qualPair p = true := by simp [qualPair, hp2, hqs]
        have h1 : pairW (fun o2 => if qualStatus o2.status then w o2 else 0) p = w o := by
          simp [pairW, hp2, hqs]
        rw [hq, h1, if_pos rfl, List.map_cons, List.sum_cons, ih]
        have h2 : pairW w p = w o := by simp [pairW, hp2]
        rw [h2]
      · have hqf : qualStatus o.status = false := Bool.not_eq_true _ |>.mp hqs
        have hq : qualPair p = false := by simp [qualPair, hp2, hqf]
        have h0 : pairW (fun o2 => if qualStatus o2.status then w o2 else 0) p = 0 := by
          simp [pairW, hp2, hqf]
        rw [hq, h0]
        simp only [Bool.false_eq_true, if_false]
        rw [ih, zero_add]

lemma sum_ite_filter {M : Type} [AddCommMonoid M] (w : Order → M) (l : List Order) :
    (l.map (fun o => if qualStatus o.status then w o else 0)).sum
      = ((l.filter (fun o => qualStatus o.status)).map w).sum := by
  induction l with
  | nil => rfl
  | cons o os ih =>
    rw [List.map_cons, List.sum_cons, List.filter_cons]
    cases h : qualStatus o.status
    · rw [if_neg (by simp [h]), ih, zero_add]
      simp
    · rw [if_pos (by simp [h]), if_pos rfl, List.map_cons, List.sum_cons, ih]

lemma length_eq_sum_ones {α : Type} (l : List α) : (l.map (fun _ => (1 : ℕ))).sum = l.length := by
  induction l with
  | nil => rfl
  | cons a l ih => rw [List.map_cons, List.sum_cons, ih, Nat.add_comm, List.length_cons]

lemma count_filter_qualPair (l : List (Customer × Option Order)) :
    ((l.filter qualPair).map (pairW (fun _ => (1 : ℕ)))).sum = (l.filter qualPair).length := by
  have hones : ∀ p ∈ l.filter qualPair, pairW (fun _ => (1 : ℕ)) p = 1 := by
    intro p hp
    have hq : qualPair p = true := List.of_mem_filter hp
    rcases hp2 : p.2 with _ | o
    · rw [qualPair, hp2] at hq
      exact absurd hq (by simp)
    · simp [pairW, hp2]
  rw [List.map_congr_left hones, length_eq_sum_ones]

lemma qualStatus_eq_shippedOrArrived (o : Order) : qualStatus o.status = shippedOrArrived o := by
  obtain ⟨i, cid, amt, st, d⟩ := o
  cases st <;> rfl

lemma city_agg_spec {M : Type} [AddCommMonoid M] (w : Order → M) (db : DBState) (x : String)
    (hid : (db.customers.map Customer.id).Nodup) :
    ((((joinRows db).filter (fun p => decide (cityOf p.1 = x))).filter qualPair).map
      (pairW w)).sum = ((cityQualOrders db x).map w).sum := by
  rw [sum_filter_qualPair w ((joinRows db).filter (fun p => decide (cityOf p.1 = x)))]
  rw [show joinRows db = db.customers.flatMap (joinFn db.orders) from rfl]
  rw [join_city_sum (fun o => if qualStatus o.status then w o else 0) db.customers db.orders x]
  have hnest := nested_owner_sum (fun o => if qualStatus o.status then w o else 0)
    db.customers hid db.orders x
  rw [hnest, sum_ite_filter w]
  rw [List.filter_filter]
  unfold cityQualOrders
  apply congrArg List.sum
  apply congrArg (List.map w)
  apply List.filter_congr
  intro o ho
  rw [qualStatus_eq_shippedOrArrived]

lemma cityRow_spec (db : DBState) (x : String) (hid : (db.customers.map Customer.id).Nodup) :
    (cityRow db x).city_orders = (cityQualOrders db x).length ∧
    (cityRow db x).city_revenue = ((cityQualOrders db x).map Order.amount).sum := by
  constructor
  · show (((joinRows db).filter (fun p => decide (cityOf p.1 = x))).filter qualPair).length
      = (cityQualOrders db x).length
    rw [← count_filter_qualPair, city_agg_spec (fun _ => (1 : ℕ)) db x hid,
      length_eq_sum_ones]
  · exact city_agg_spec Order.amount db x hid

/-! ## Claim about city_revenue_report_filtered -/

/-- C4: for every city of the database state — the sentinel city for null
included — the filtered city report counts and sums exactly the orders of
that city whose status is shipped or arrived, so pending and cancelled orders
never contribute; a city whose customers have no qualifying orders still
appears, with zero count and amount by the same formula; each city appears
once; and the rows are ordered by total amount descending. -/
theorem c4_city_revenue_report_filtered (db : DBState) (faults : List Bool)
    (hid : (db.customers.map Customer.id).Nodup) (hf : (nextFault faults).1 = false) :
    ∃ rows, city_revenue_report_filtered db faults = (db, (nextFault faults).2, .ok rows) ∧
      (∀ x, x ∈ rows.map CityRow.city ↔ ∃ c ∈ db.customers, cityOf c = x) ∧
      (rows.map CityRow.city).Nodup ∧
      (∀ r ∈ rows, r.city_orders = (cityQualOrders db r.city).length ∧
        r.city_revenue = ((cityQualOrders db r.city).map Order.amount).sum) ∧
      rows.Pairwise (fun a b => b.city_revenue ≤ a.city_revenue) := by
  have hperm : List.Perm (cityRevenueQuery db)
      ((((joinRows db).map (fun p => cityOf p.1)).dedup).map (cityRow db)) :=
    sortDescBy_perm _ _
  have hmapcity : ((((joinRows db).map (fun p => cityOf p.1)).dedup).map (cityRow db)).map
      CityRow.city = ((joinRows db).map (fun p => cityOf p.1)).dedup := by
    rw [List.map_map]
    exact (List.map_congr_left (fun k _ => rfl)).trans (List.map_id _)
  refine ⟨cityRevenueQuery db, ?_, ?_, ?_, ?_, ?_⟩
  · unfold city_revenue_report_filtered runReadOnly
    rw [if_neg (by rw [hf]; exact Bool.false_ne_true)]
  · intro x
    rw [(hperm.map CityRow.city).mem_iff, hmapcity, List.mem_dedup]
    exact mem_join_city db.customers db.orders x
  · have hnd : (((((joinRows db).map (fun p => cityOf p.1)).dedup).map
        (cityRow db)).map CityRow.city).Nodup := by
      rw [hmapcity]
      exact List.nodup_dedup _
    exact ((hperm.map CityRow.city).symm).nodup hnd
  · intro r hr
    obtain ⟨k, hk, rfl⟩ := List.mem_map.mp (hperm.mem_iff.mp hr)
    exact cityRow_spec db k hid
  · exact sortDescBy_sorted _ _

/-- C4 witness: on the seeded demo database the filtered city report returns
the state unchanged, one row per distinct city. -/
theorem c4_city_revenue_report_filtered_witness :
    ∃ rows, city_revenue_report_filtered demoDb [false] = (demoDb, [], .ok rows) ∧
      (rows.map CityRow.city).Nodup := by
  obtain ⟨rows, h1, h2, h3, hrest⟩ :=
    c4_city_revenue_report_filtered demoDb [false] (by decide) rfl
  exact ⟨rows, h1, h3⟩

end SqlAutomation
